import Mathlib

/-!
Verification development for the AutoIdeas repository.

Part 1 models the survey front end that is present verbatim in the
repository (the survey form answer extraction and the admin dashboard id
truncation).  Part 2 models the asynchronous idea-ingestion core
(queue, worker pool, clustering engine, board poster, session store and
event publisher).  The core is described by the specification and by
ARCHITECTURE.md but its Python implementation is not part of the source
tree, so those definitions are modelled from the spec, as indicated in
their doc comments.
-/

namespace AutoIdeas

/-! ## Survey form (src/unnamed/part_000, SurveyForm.extractAnswers) -/

/-- A JavaScript number as produced by parseInt: an integer or NaN. -/
inductive JSNum where
  | int : Int → JSNum
  | nan : JSNum
deriving DecidableEq

/-- One entry of the question metadata list in SurveyForm.extractAnswers. -/
structure SurveyQuestion where
  id : String
  sectionName : String
  text : String
  qtype : String
  optional : Bool := false
deriving DecidableEq

/-- An answer object as pushed by SurveyForm.extractAnswers.
answer_rating and answer_text model optional JavaScript properties:
the outer Option is presence of the property, and for answer_text the
inner Option models a possibly-null form value. -/
structure SurveyAnswer where
  question_id : String
  section_name : String
  question_text : String
  answer_type : String
  answer_rating : Option JSNum := none
  answer_text : Option (Option String) := none
deriving DecidableEq

/-- JavaScript truthiness of a form value (FormData.get returns a string
or null; the only falsy string is the empty string). -/
def jsTruthy : Option String → Bool
  | none => false
  | some s => s ≠ ""

/-- JavaScript whitespace skipped by parseInt. -/
def isJsWS (c : Char) : Bool :=
  c == ' ' || c == '\t' || c == '\n' || c == '\r' || c == '\x0b' || c == '\x0c'

/-- Accumulate the decimal value of a digit list, most significant first. -/
def digitsToNat (ds : List Char) : Nat :=
  ds.foldl (fun a c => a * 10 + (c.toNat - 48)) 0

/-- Parse the longest leading run of decimal digits with a given sign;
NaN when there is no digit, as in JavaScript parseInt. -/
def jsParseSigned (sign : Int) (cs : List Char) : JSNum :=
  let ds := cs.takeWhile Char.isDigit
  if ds.isEmpty then JSNum.nan else JSNum.int (sign * (digitsToNat ds : Int))

/-- JavaScript parseInt(s, 10) on a character list: skip leading
whitespace, read an optional sign, then leading decimal digits. -/
def jsParseIntChars (cs : List Char) : JSNum :=
  match cs.dropWhile isJsWS with
  | [] => JSNum.nan
  | c :: rest =>
    if c = '-' then jsParseSigned (-1) rest
    else if c = '+' then jsParseSigned 1 rest
    else jsParseSigned 1 (c :: rest)

/-- parseInt(value, 10) where value is the string-or-null result of
FormData.get.  A null value coerces to the string "null", which contains
no leading digits, hence NaN. -/
def parseInt10 : Option String → JSNum
  | none => JSNum.nan
  | some s => jsParseIntChars s.data

/-- The fixed question list of SurveyForm.extractAnswers, verbatim. -/
def questions : List SurveyQuestion :=
  [ { id := "warmup_org_type", sectionName := "Warm-up",
      text := "What type of healthcare organisation do you work in?", qtype := "free_text" },
    { id := "warmup_role", sectionName := "Warm-up",
      text := "What\x27s your current role or title?", qtype := "free_text" },
    { id := "experience_focus", sectionName := "Experience with AI",
      text := "What Healthcare AI work or outcomes have been your focus?", qtype := "free_text" },
    { id := "experience_why_matters", sectionName := "Experience with AI",
      text := "Why do these outcomes matter?", qtype := "free_text" },
    { id := "challenges_hardest", sectionName := "Challenges",
      text := "What\x27s been hardest about adopting AI?", qtype := "free_text" },
    { id := "maturity_structure", sectionName := "AI Maturity Check",
      text := "Clear structure, roles and ownership for AI", qtype := "rating" },
    { id := "maturity_operating_model", sectionName := "AI Maturity Check",
      text := "Operating model and ways of working with AI", qtype := "rating" },
    { id := "maturity_risk", sectionName := "AI Maturity Check",
      text := "Risk management, compliance, and cybersecurity", qtype := "rating" },
    { id := "maturity_data", sectionName := "AI Maturity Check",
      text := "Data management, quality and readiness for AI", qtype := "rating" },
    { id := "maturity_tools", sectionName := "AI Maturity Check",
      text := "Tools, platforms, and enabling technology", qtype := "rating" },
    { id := "maturity_lifecycle", sectionName := "AI Maturity Check",
      text := "Managing the AI lifecycle", qtype := "rating" },
    { id := "maturity_governance", sectionName := "AI Maturity Check",
      text := "Ongoing monitoring, ethics governance, and assurance", qtype := "rating" },
    { id := "maturity_comments", sectionName := "AI Maturity Check",
      text := "Additional comments about AI maturity", qtype := "free_text", optional := true },
    { id := "different_approaches", sectionName := "What\x27s Different About AI",
      text := "What have you done differently compared to traditional digital programs?", qtype := "free_text" },
    { id := "different_unique", sectionName := "What\x27s Different About AI",
      text := "What makes these approaches unique to AI within Healthcare?", qtype := "free_text" },
    { id := "leadership_changes", sectionName := "Leadership and Skills",
      text := "How has AI changed your role as a leader?", qtype := "free_text" },
    { id := "final_thoughts", sectionName := "Final Thoughts",
      text := "Any final thoughts about AI in healthcare?", qtype := "free_text", optional := true } ]

/-- The answer object built by the loop body of extractAnswers for one
question: base metadata, then for a rating question the parsed rating
plus the comment field when truthy, otherwise the form value as text. -/
def answerOf (form : String → Option String) (q : SurveyQuestion) : SurveyAnswer :=
  let value := form q.id
  let base : SurveyAnswer :=
    { question_id := q.id, section_name := q.sectionName,
      question_text := q.text, answer_type := q.qtype }
  if q.qtype = "rating" then
    let withRating := { base with answer_rating := some (parseInt10 value) }
    let comment := form (q.id ++ "_comment")
    if jsTruthy comment then { withRating with answer_text := some comment }
    else withRating
  else
    { base with answer_text := some value }

/-- The skip condition of the loop of extractAnswers: the question is
optional and its form value is falsy. -/
def skipQ (form : String → Option String) (q : SurveyQuestion) : Bool :=
  q.optional && !jsTruthy (form q.id)

/-- SurveyForm.extractAnswers: iterate the question list, skipping an
optional question whose form value is falsy, and push one answer object
per remaining question. -/
def extractAnswers (form : String → Option String) : List SurveyAnswer :=
  questions.foldl
    (fun answers q =>
      if skipQ form q then answers
      else answers ++ [answerOf form q])
    []

/-! ## Admin dashboard (src/survey-admin/js/app.js, SurveyAdmin.truncateId) -/

/-- SurveyAdmin.truncateId.  A JavaScript string is modelled as its list
of characters; the argument Option models a possibly null/undefined id
(and the empty string is falsy like them). -/
def truncateId : Option (List Char) → List Char
  | none => ['-']
  | some s =>
    if s = [] then ['-']
    else if s.length ≤ 20 then s
    else s.take 12 ++ ['.', '.', '.'] ++ s.drop (s.length - 4)

/-! ## Asynchronous idea-ingestion core

The Python implementation (mcp-server, workers) is not part of the
source tree; the definitions below are modelled from the specification
and from ARCHITECTURE.md as noted on each definition. -/

/-- Modelled from the spec: session status, one of active, idle, expired. -/
inductive SessionStatus where
  | active
  | idle
  | expired
deriving DecidableEq

/-- Modelled from the spec: a Session record of the Session Store. -/
structure Session where
  id : String
  workshop_id : String
  idea_count : Nat
  last_activity_at : Nat
  status : SessionStatus
deriving DecidableEq

/-- Modelled from the spec: an IdeaJob, the unit of queued work. -/
structure IdeaJob where
  job_id : String
  session_id : String
  workshop_id : String
  raw_transcript : String
  question_id : Option String
  submitted_at : Nat
  attempt_count : Nat
deriving DecidableEq

/-- Modelled from the spec: a Theme, a cluster of ideas in one workshop. -/
structure Theme where
  theme_id : String
  workshop_id : String
  label : String
  member_idea_ids : List String
  representative : String
deriving DecidableEq

/-- Modelled from the spec: a ProcessedIdea derived from a job. -/
structure ProcessedIdea where
  idea_id : String
  session_id : String
  workshop_id : String
  canonical_text : String
  theme_id : String
  card_ref : String
deriving DecidableEq

/-- Event types of the live-update channel, modelled from
ARCHITECTURE.md (API Architecture, Event Types): the SSE endpoint
delivers connected, idea_submitted, idea_processed, processing_error and
session_updated events. -/
inductive EventType where
  | connected
  | idea_submitted
  | idea_processed
  | processing_error
  | session_updated
deriving DecidableEq

/-- Modelled from the spec: a live-update event of shape
\x7btype, session_id, idea_id?, theme_id?, card_ref?, error?\x7d. -/
structure Event where
  type : EventType
  session_id : String
  idea_id : Option String := none
  theme_id : Option String := none
  card_ref : Option String := none
  error : Option String := none
deriving DecidableEq

/-- Modelled from the spec: per-workshop static configuration supplying
activity, the theme-similarity threshold, the catch-all theme and the
board. -/
structure WorkshopConfig where
  active : Bool
  similarity_threshold : Nat
  default_theme_id : String
  board_id : String
deriving DecidableEq

/-- Modelled from the spec: global configuration of the core: the
workshop table, the similarity scorer of the clustering engine (its
availability flag models the optional external AI dependency) and the
queue retry maximum (default 3). -/
structure Config where
  workshops : List (String × WorkshopConfig)
  sim : String → String → Nat
  aiAvailable : Bool
  max_attempts : Nat := 3

/-- Modelled from the spec: the observable state of the core: the queue,
the dead-letter list, the session store, the clustering store, the
processed-idea store keyed by job_id (the idempotency key), the board
poster id-to-ref cache keyed by idea_id, and the published events. -/
structure CoreState where
  queue : List IdeaJob
  deadLetters : List (IdeaJob × String)
  sessions : List Session
  themes : List Theme
  processed : List (String × ProcessedIdea)
  cardRefs : List (String × String)
  events : List Event
deriving DecidableEq

/-- Association-list lookup by string key. -/
def alookup {β : Type} : List (String × β) → String → Option β
  | [], _ => none
  | (a, b) :: rest, k => if a = k then some b else alookup rest k

/-- Number of entries of an association list holding a given key. -/
def countKey {β : Type} (l : List (String × β)) (k : String) : Nat :=
  (l.filter (fun p => p.1 = k)).length

/-- Modelled from the spec: a workshop is valid for ingest when it is
known and active. -/
def workshopValid (cfg : Config) (wid : String) : Bool :=
  match alookup cfg.workshops wid with
  | some w => w.active
  | none => false

/-- Modelled from the spec: a submission accepted at the ingest
boundary: workshop_id, session_id, a free-text transcript and optional
question/category metadata. -/
structure Submission where
  workshop_id : String
  session_id : String
  transcript : String
  question_id : Option String
  category : Option String
deriving DecidableEq

/-- Modelled from the spec: the ingest response, a job identifier plus
accepted/rejected status. -/
structure IngestResponse where
  job_id : String
  accepted : Bool
deriving DecidableEq

/-- Modelled from the spec: the ingest boundary validates the workshop
and either enqueues a fresh job and publishes idea_submitted, or rejects
the submission without queueing anything. -/
def ingest (cfg : Config) (now : Nat) (fresh : String) (s : CoreState)
    (sub : Submission) : IngestResponse × CoreState :=
  if workshopValid cfg sub.workshop_id then
    let job : IdeaJob :=
      { job_id := fresh, session_id := sub.session_id,
        workshop_id := sub.workshop_id, raw_transcript := sub.transcript,
        question_id := sub.question_id, submitted_at := now, attempt_count := 0 }
    ({ job_id := fresh, accepted := true },
     { s with queue := s.queue ++ [job],
              events := s.events ++
                [{ type := EventType.idea_submitted, session_id := sub.session_id }] })
  else
    ({ job_id := fresh, accepted := false }, s)

/-- The processing_error event published when a job is dead-lettered. -/
def processingErrorEvent (j : IdeaJob) (reason : String) : Event :=
  { type := EventType.processing_error, session_id := j.session_id,
    idea_id := some j.job_id, error := some reason }

/-- Modelled from the spec: nack returns the job to the queue with
incremented attempt_count, or, when the incremented count reaches the
configured maximum, writes a dead-letter entry and publishes one
processing_error event instead of retrying further. -/
def nack (maxAttempts : Nat) (s : CoreState) (j : IdeaJob) (reason : String) : CoreState :=
  let j2 := { j with attempt_count := j.attempt_count + 1 }
  if maxAttempts ≤ j2.attempt_count then
    { s with deadLetters := s.deadLetters ++ [(j2, reason)],
             events := s.events ++ [processingErrorEvent j2 reason] }
  else
    { s with queue := s.queue ++ [j2] }

/-- Themes of one workshop only (no cross-workshop clustering). -/
def themesOf (wid : String) (ts : List Theme) : List Theme :=
  ts.filter (fun t => t.workshop_id == wid)

/-- Best-scoring theme for a text among a theme list, scoring each
theme by similarity of the text to its representative summary; an
earlier theme wins ties. -/
def bestMatch (sim : String → String → Nat) (text : String) :
    List Theme → Option (Theme × Nat)
  | [] => none
  | t :: rest =>
    match bestMatch sim text rest with
    | none => some (t, sim text t.representative)
    | some (tb, sb) =>
      if sb > sim text t.representative then some (tb, sb)
      else some (t, sim text t.representative)

/-- Add an idea to the member set of the theme with the given id. -/
def addMember (tid ideaId : String) (ts : List Theme) : List Theme :=
  ts.map (fun t =>
    if t.theme_id = tid then
      { t with member_idea_ids := t.member_idea_ids ++ [ideaId] }
    else t)

/-- Deterministic fresh theme identifier for a new cluster. -/
def newThemeId (ideaId : String) : String := "theme_" ++ ideaId

/-- Modelled from the spec: assign_theme computes similarity between the
new text and the representative summaries of the themes of the same
workshop only; when the best similarity exceeds the configured threshold
the idea joins that theme, otherwise a new theme is created with the
idea as sole member and itself as representative.  When similarity
scoring is unavailable (external AI dependency down) the idea is routed
to the workshop\x27s configured catch-all theme instead of failing. -/
def assign_theme (cfg : Config) (w : WorkshopConfig) (themes : List Theme)
    (wid ideaId text : String) : String × List Theme :=
  if cfg.aiAvailable then
    match bestMatch cfg.sim text (themesOf wid themes) with
    | some (t, score) =>
      if w.similarity_threshold < score then
        (t.theme_id, addMember t.theme_id ideaId themes)
      else
        (newThemeId ideaId,
         themes ++ [{ theme_id := newThemeId ideaId, workshop_id := wid,
                      label := text, member_idea_ids := [ideaId],
                      representative := text }])
    | none =>
      (newThemeId ideaId,
       themes ++ [{ theme_id := newThemeId ideaId, workshop_id := wid,
                    label := text, member_idea_ids := [ideaId],
                    representative := text }])
  else
    if themes.any (fun t => t.theme_id == w.default_theme_id) then
      (w.default_theme_id, addMember w.default_theme_id ideaId themes)
    else
      (w.default_theme_id,
       themes ++ [{ theme_id := w.default_theme_id, workshop_id := wid,
                    label := "catch-all", member_idea_ids := [ideaId],
                    representative := text }])

/-- The card reference the external board returns for an idea, modelled
deterministically. -/
def cardRefFor (ideaId : String) : String := "card_" ++ ideaId

/-- Modelled from the spec: place_card is idempotent per idea_id through
the id-to-ref cache: when a card_ref already exists for the idea it is
returned unchanged, otherwise a card is created and cached. -/
def place_card (cardRefs : List (String × String)) (ideaId : String) :
    String × List (String × String) :=
  match alookup cardRefs ideaId with
  | some ref => (ref, cardRefs)
  | none => (cardRefFor ideaId, cardRefs ++ [(ideaId, cardRefFor ideaId)])

/-- Modelled from the spec: touch creates the session if absent with
idea_count 1, otherwise atomically increments idea_count, and updates
last_activity_at and status in the same atomic step. -/
def touchSessionList (now : Nat) (sid wid : String) : List Session → List Session
  | [] => [{ id := sid, workshop_id := wid, idea_count := 1,
             last_activity_at := now, status := SessionStatus.active }]
  | s :: rest =>
    if s.id = sid then
      { s with idea_count := s.idea_count + 1, last_activity_at := now,
               status := SessionStatus.active } :: rest
    else s :: touchSessionList now sid wid rest

/-- Find a session by id in the session store. -/
def findSession (sid : String) : List Session → Option Session
  | [] => none
  | s :: rest => if s.id = sid then some s else findSession sid rest

/-- Modelled from the spec: the state-level touch operation of the
Session Store. -/
def touch (now : Nat) (s : CoreState) (sid wid : String) : CoreState :=
  { s with sessions := touchSessionList now sid wid s.sessions }

/-- A fold of one atomic touch per concurrent submission; the timestamp
list enumerates the submissions in an arbitrary serialization order. -/
def touchFold (sid wid : String) (ts : List Nat) (l : List Session) : List Session :=
  ts.foldl (fun acc t => touchSessionList t sid wid acc) l

/-- Modelled from the spec: expiry of a single session: sessions whose
last_activity_at is older than the ttl transition to status expired;
nothing else changes. -/
def expireSession (now ttl : Nat) (s : Session) : Session :=
  if s.last_activity_at + ttl < now then { s with status := SessionStatus.expired } else s

/-- Modelled from the spec: expire_idle, the periodic sweep; expiry is a
status flag, not removal. -/
def expire_idle (now ttl : Nat) (s : CoreState) : CoreState :=
  { s with sessions := s.sessions.map (expireSession now ttl) }

/-- Deterministic idea identifier derived from the job (the job_id is
the idempotency key of the whole pipeline). -/
def ideaIdOf (j : IdeaJob) : String := "idea_" ++ j.job_id

/-- Modelled from the spec: one worker attempt on a dequeued job: the
job_id idempotency guard acks a redelivered already-processed job
without side effects; otherwise the worker validates the workshop
config, asks the clustering engine for a theme, asks the board poster
for a card, persists the ProcessedIdea under the job_id key, touches the
session store and publishes idea_processed.  A failure (posterOk false,
the simulated permanent poster failure, or an unknown workshop) nacks
the job. -/
def processAttempt (cfg : Config) (now : Nat) (posterOk : Bool)
    (s : CoreState) (j : IdeaJob) : CoreState :=
  if (alookup s.processed j.job_id).isSome then s
  else
    match alookup cfg.workshops j.workshop_id with
    | none => nack cfg.max_attempts s j "unknown workshop"
    | some w =>
      if posterOk then
        let ideaId := ideaIdOf j
        let tr := assign_theme cfg w s.themes j.workshop_id ideaId j.raw_transcript
        let pr := place_card s.cardRefs ideaId
        let idea : ProcessedIdea :=
          { idea_id := ideaId, session_id := j.session_id,
            workshop_id := j.workshop_id, canonical_text := j.raw_transcript,
            theme_id := tr.1, card_ref := pr.1 }
        { s with themes := tr.2, cardRefs := pr.2,
                 processed := s.processed ++ [(j.job_id, idea)],
                 sessions := touchSessionList now j.session_id j.workshop_id s.sessions,
                 events := s.events ++
                   [{ type := EventType.idea_processed, session_id := j.session_id,
                      idea_id := some ideaId, theme_id := some tr.1,
                      card_ref := some pr.1 }] }
      else nack cfg.max_attempts s j "poster failure"

/-- Modelled from the spec: one scheduling step of the worker pool:
dequeue the head job, when there is one, and run one attempt on it. -/
def workerStep (cfg : Config) (now : Nat) (posterOk : Bool) (s : CoreState) : CoreState :=
  match s.queue with
  | [] => s
  | j :: rest => processAttempt cfg now posterOk { s with queue := rest } j

/-- The connected handshake event delivered when a subscriber attaches
to the SSE channel, modelled from ARCHITECTURE.md (API Architecture). -/
def connectedEvent : Event := { type := EventType.connected, session_id := "" }

/-- Modelled from ARCHITECTURE.md: the events a new subscriber of the
live-update channel observes: the connected handshake followed by the
published events. -/
def subscribeEvents (s : CoreState) : List Event :=
  connectedEvent :: s.events

/-- Whether an event type is one of the four types the specification
lists for the live-update boundary. -/
def specEventType : EventType → Bool
  | EventType.idea_submitted => true
  | EventType.idea_processed => true
  | EventType.processing_error => true
  | EventType.session_updated => true
  | EventType.connected => false

/-- All published events carry a spec-listed type. -/
def eventsWellTyped (s : CoreState) : Prop :=
  ∀ e ∈ s.events, specEventType e.type = true

/-- All sessions of the first store survive, by id, into the second. -/
def sessionIdsPreserved (before after : List Session) : Prop :=
  ∀ sess ∈ before, ∃ sess2, sess2 ∈ after ∧ sess2.id = sess.id

/-- The empty initial state of the core. -/
def initialState : CoreState :=
  { queue := [], deadLetters := [], sessions := [], themes := [],
    processed := [], cardRefs := [], events := [] }

/-! ## Concrete inputs used to instantiate the theorems -/

/-- An active example workshop configuration. -/
def exampleWorkshop : WorkshopConfig :=
  { active := true, similarity_threshold := 50,
    default_theme_id := "catch_all", board_id := "B1" }

/-- An example core configuration with the AI scorer available. -/
def exampleCfg : Config :=
  { workshops := [("W1", exampleWorkshop)],
    sim := fun a b => if a = b then 100 else 0,
    aiAvailable := true, max_attempts := 3 }

/-- The same configuration with the AI dependency down. -/
def exampleCfgNoAI : Config := { exampleCfg with aiAvailable := false }

/-- An example queued job for workshop W1. -/
def exampleJob : IdeaJob :=
  { job_id := "J1", session_id := "S1", workshop_id := "W1",
    raw_transcript := "reduce manual rekeying in contribution processing",
    question_id := none, submitted_at := 0, attempt_count := 0 }

/-- A submission naming an unknown workshop. -/
def exampleSub : Submission :=
  { workshop_id := "W2", session_id := "S1", transcript := "hello",
    question_id := none, category := none }

/-- A state holding exactly the example job. -/
def c2State : CoreState := { initialState with queue := [exampleJob] }

/-- An idle example session. -/
def exSession : Session :=
  { id := "S1", workshop_id := "W1", idea_count := 2,
    last_activity_at := 3, status := SessionStatus.idle }

/-- A state holding the idle example session. -/
def exState : CoreState := { initialState with sessions := [exSession] }

/-- An example filled survey form. -/
def exampleForm : String → Option String := fun k =>
  if k = "maturity_structure" then some "3"
  else if k = "maturity_structure_comment" then some "still evolving"
  else if k = "warmup_org_type" then some "hospital"
  else none

/-- The maturity_structure question of the fixed list. -/
def ratingQuestion : SurveyQuestion :=
  { id := "maturity_structure", sectionName := "AI Maturity Check",
    text := "Clear structure, roles and ownership for AI", qtype := "rating" }

/-- A 25-character id used to instantiate the truncation theorem. -/
def longId : List Char :=
  ['a', 'b', 'c', 'd', 'e', 'f', 'g', 'h', 'i', 'j', 'k', 'l', 'm',
   'n', 'o', 'p', 'q', 'r', 's', 't', 'u', 'v', 'w', 'x', 'y']

/-! ## Theorems -/

theorem extract_go (form : String → Option String) (qs : List SurveyQuestion)
    (acc : List SurveyAnswer) :
    qs.foldl
      (fun answers q =>
        if skipQ form q then answers
        else answers ++ [answerOf form q]) acc
      = acc ++ (qs.filter (fun q => !skipQ form q)).map (answerOf form) := by
  induction qs generalizing acc with
  | nil => simp
  | cons q qs ih =>
    simp only [List.foldl_cons, List.filter_cons]
    cases h : skipQ form q with
    | true => simp [h, ih]
    | false => simp [h, ih]

theorem answerOf_fields (form : String → Option String) (q : SurveyQuestion) :
    (answerOf form q).question_id = q.id
    ∧ (answerOf form q).section_name = q.sectionName
    ∧ (answerOf form q).question_text = q.text
    ∧ (answerOf form q).answer_type = q.qtype := by
  by_cases h : q.qtype = "rating" <;>
    by_cases h2 : jsTruthy (form (q.id ++ "_comment")) <;>
      simp [answerOf, h, h2]

theorem answerOf_rating (form : String → Option String) (q : SurveyQuestion)
    (h : q.qtype = "rating") :
    (answerOf form q).answer_rating = some (parseInt10 (form q.id))
    ∧ ((answerOf form q).answer_text ≠ none
        ↔ jsTruthy (form (q.id ++ "_comment")) = true)
    ∧ (jsTruthy (form (q.id ++ "_comment")) = true
        → (answerOf form q).answer_text = some (form (q.id ++ "_comment"))) := by
  by_cases h2 : jsTruthy (form (q.id ++ "_comment")) <;>
    simp [answerOf, h, h2]

theorem answerOf_free_text (form : String → Option String) (q : SurveyQuestion)
    (h : ¬ q.qtype = "rating") :
    (answerOf form q).answer_text = some (some (form q.id))
    ∧ (answerOf form q).answer_rating = none := by
  simp [answerOf, h]

/-- Claim C9: for every survey-form input, extractAnswers returns one
answer per question of the fixed 17-question list, in list order,
omitting a question exactly when it is optional (only maturity_comments
and final_thoughts are) and its form value is falsy; each answer carries
that question\x27s id, section, text and type; a rating answer holds the
base-10 integer parse of the form value and holds answer_text exactly
when the corresponding comment field is non-empty; a free_text answer
holds the form value itself. -/
theorem C9_extract_answers (form : String → Option String) :
    extractAnswers form
      = (questions.filter (fun q => !skipQ form q)).map (answerOf form)
    ∧ (∀ q : SurveyQuestion,
        skipQ form q = true ↔ (q.optional = true ∧ jsTruthy (form q.id) = false))
    ∧ questions.length = 17
    ∧ (∀ q ∈ questions,
        (q.optional = true ↔ (q.id = "maturity_comments" ∨ q.id = "final_thoughts")))
    ∧ (∀ q : SurveyQuestion,
        (answerOf form q).question_id = q.id
        ∧ (answerOf form q).section_name = q.sectionName
        ∧ (answerOf form q).question_text = q.text
        ∧ (answerOf form q).answer_type = q.qtype)
    ∧ (∀ q : SurveyQuestion, q.qtype = "rating" →
        (answerOf form q).answer_rating = some (parseInt10 (form q.id))
        ∧ ((answerOf form q).answer_text ≠ none
            ↔ jsTruthy (form (q.id ++ "_comment")) = true)
        ∧ (jsTruthy (form (q.id ++ "_comment")) = true
            → (answerOf form q).answer_text = some (form (q.id ++ "_comment"))))
    ∧ (∀ q : SurveyQuestion, ¬ q.qtype = "rating" →
        (answerOf form q).answer_text = some (some (form q.id))
        ∧ (answerOf form q).answer_rating = none) := by
  refine ⟨?_, ?_, by decide, by decide, ?_, ?_, ?_⟩
  · simpa [extractAnswers] using extract_go form questions []
  · intro q; simp [skipQ]
  · exact fun q => answerOf_fields form q
  · exact fun q h => answerOf_rating form q h
  · exact fun q h => answerOf_free_text form q h

theorem C9_witness :
    (answerOf exampleForm ratingQuestion).answer_rating
      = some (parseInt10 (exampleForm ratingQuestion.id))
    ∧ parseInt10 (exampleForm ratingQuestion.id) = JSNum.int 3 :=
  ⟨((C9_extract_answers exampleForm).2.2.2.2.2.1 ratingQuestion rfl).1, by decide⟩

/-- Claim C10: truncateId returns a single dash for every falsy id,
returns a non-empty id unchanged whenever its length is at most 20, and
for every longer id returns the first 12 characters, an ellipsis, and
the last 4 characters: a 19-character string preserving the prefix and
the suffix of the id. -/
theorem C10_truncate_id :
    truncateId none = ['-']
    ∧ truncateId (some []) = ['-']
    ∧ (∀ s : List Char, s ≠ [] → s.length ≤ 20 → truncateId (some s) = s)
    ∧ (∀ s : List Char, 20 < s.length →
        truncateId (some s) = s.take 12 ++ ['.', '.', '.'] ++ s.drop (s.length - 4)
        ∧ (truncateId (some s)).length = 19
        ∧ (truncateId (some s)).take 12 = s.take 12
        ∧ (truncateId (some s)).drop 15 = s.drop (s.length - 4)) := by
  refine ⟨rfl, by simp [truncateId], ?_, ?_⟩
  · intro s h1 h2
    simp [truncateId, h1, h2]
  · intro s h
    have h1 : s ≠ [] := by
      intro he; rw [he] at h; simp at h
    have h2 : ¬ s.length ≤ 20 := not_le.mpr h
    have he : truncateId (some s)
        = s.take 12 ++ ['.', '.', '.'] ++ s.drop (s.length - 4) := by
      simp [truncateId, h1, h2]
    have h12 : (s.take 12).length = 12 := by
      rw [List.length_take]; omega
    have h15 : (s.take 12 ++ ['.', '.', '.']).length = 15 := by
      rw [List.length_append, h12]; rfl
    refine ⟨he, ?_, ?_, ?_⟩
    · rw [he]
      simp only [List.length_append, List.length_take, List.length_drop,
        List.length_cons, List.length_nil]
      omega
    · rw [he, List.append_assoc]
      calc (s.take 12 ++ (['.', '.', '.'] ++ s.drop (s.length - 4))).take 12
          = (s.take 12 ++ (['.', '.', '.'] ++ s.drop (s.length - 4))).take
              (s.take 12).length := by rw [h12]
        _ = s.take 12 := List.take_left _ _
    · rw [he]
      calc (s.take 12 ++ ['.', '.', '.'] ++ s.drop (s.length - 4)).drop 15
          = (s.take 12 ++ ['.', '.', '.'] ++ s.drop (s.length - 4)).drop
              (s.take 12 ++ ['.', '.', '.']).length := by rw [h15]
        _ = s.drop (s.length - 4) := List.drop_left _ _

theorem C10_witness :
    truncateId (some ['a', 'b']) = ['a', 'b']
    ∧ (truncateId (some longId)).length = 19 :=
  ⟨C10_truncate_id.2.2.1 ['a', 'b'] (by decide) (by decide),
   (C10_truncate_id.2.2.2 longId (by decide)).2.1⟩

theorem alookup_append_right {β : Type} (l : List (String × β)) (k : String) (v : β)
    (h : alookup l k = none) : alookup (l ++ [(k, v)]) k = some v := by
  induction l with
  | nil => simp [alookup]
  | cons p rest ih =>
    obtain ⟨a, b⟩ := p
    by_cases ha : a = k
    · simp [alookup, ha] at h
    · simp only [List.cons_append, alookup, ha, if_false] at h ⊢
      exact ih h

theorem countKey_eq_zero {β : Type} (l : List (String × β)) (k : String)
    (h : alookup l k = none) : countKey l k = 0 := by
  induction l with
  | nil => simp [countKey]
  | cons p rest ih =>
    obtain ⟨a, b⟩ := p
    by_cases ha : a = k
    · simp [alookup, ha] at h
    · simp only [alookup, ha, if_false] at h
      simp [countKey, List.filter_cons, ha] at ih ⊢
      exact ih h

theorem countKey_append {β : Type} (l1 l2 : List (String × β)) (k : String) :
    countKey (l1 ++ l2) k = countKey l1 k + countKey l2 k := by
  simp [countKey, List.filter_append]

theorem countKey_singleton {β : Type} (k : String) (v : β) :
    countKey [(k, v)] k = 1 := by
  simp [countKey]

theorem place_card_lookup (c : List (String × String)) (i : String) :
    alookup (place_card c i).2 i = some (place_card c i).1 := by
  cases h : alookup c i with
  | some r => simp [place_card, h]
  | none => simp [place_card, h, alookup_append_right c i _ h]

theorem place_card_idem (c : List (String × String)) (i : String) :
    place_card (place_card c i).2 i = ((place_card c i).1, (place_card c i).2) := by
  cases h : alookup c i with
  | some r => simp [place_card, h]
  | none =>
    have h2 : alookup (c ++ [(i, cardRefFor i)]) i = some (cardRefFor i) :=
      alookup_append_right c i _ h
    simp [place_card, h, h2]

theorem processAttempt_hit (cfg : Config) (now : Nat) (posterOk : Bool)
    (s : CoreState) (j : IdeaJob)
    (h : (alookup s.processed j.job_id).isSome = true) :
    processAttempt cfg now posterOk s j = s := by
  simp [processAttempt, h]

theorem processAttempt_success (cfg : Config) (now : Nat) (s : CoreState)
    (j : IdeaJob) (w : WorkshopConfig)
    (hnew : alookup s.processed j.job_id = none)
    (hw : alookup cfg.workshops j.workshop_id = some w) :
    processAttempt cfg now true s j =
      { s with
        themes := (assign_theme cfg w s.themes j.workshop_id (ideaIdOf j)
          j.raw_transcript).2,
        cardRefs := (place_card s.cardRefs (ideaIdOf j)).2,
        processed := s.processed ++ [(j.job_id,
          { idea_id := ideaIdOf j, session_id := j.session_id,
            workshop_id := j.workshop_id, canonical_text := j.raw_transcript,
            theme_id := (assign_theme cfg w s.themes j.workshop_id (ideaIdOf j)
              j.raw_transcript).1,
            card_ref := (place_card s.cardRefs (ideaIdOf j)).1 })],
        sessions := touchSessionList now j.session_id j.workshop_id s.sessions,
        events := s.events ++
          [{ type := EventType.idea_processed, session_id := j.session_id,
             idea_id := some (ideaIdOf j),
             theme_id := some (assign_theme cfg w s.themes j.workshop_id (ideaIdOf j)
               j.raw_transcript).1,
             card_ref := some (place_card s.cardRefs (ideaIdOf j)).1 }] } := by
  simp [processAttempt, hnew, hw]

/-- Claim C1: processing the same job twice is idempotent: a second run
of the worker pipeline on an already-processed job_id changes nothing,
the job has exactly one ProcessedIdea record keyed by its job_id, a
repeated place_card returns the existing card_ref without touching the
card cache, and a fresh idea gains exactly one cached card_ref. -/
theorem C1_processing_idempotent (cfg : Config) (now : Nat) (s : CoreState)
    (j : IdeaJob) (w : WorkshopConfig)
    (hnew : alookup s.processed j.job_id = none)
    (hw : alookup cfg.workshops j.workshop_id = some w) :
    processAttempt cfg now true (processAttempt cfg now true s j) j
      = processAttempt cfg now true s j
    ∧ countKey (processAttempt cfg now true s j).processed j.job_id = 1
    ∧ place_card (processAttempt cfg now true s j).cardRefs (ideaIdOf j)
        = ((place_card s.cardRefs (ideaIdOf j)).1,
           (processAttempt cfg now true s j).cardRefs)
    ∧ (alookup s.cardRefs (ideaIdOf j) = none →
        countKey (processAttempt cfg now true s j).cardRefs (ideaIdOf j) = 1) := by
  have hs := processAttempt_success cfg now s j w hnew hw
  refine ⟨?_, ?_, ?_, ?_⟩
  · have hl : (alookup (processAttempt cfg now true s j).processed j.job_id).isSome
        = true := by
      rw [hs]
      simp [alookup_append_right _ _ _ hnew]
    exact processAttempt_hit cfg now true _ j hl
  · rw [hs]
    simp only [countKey_append, countKey_eq_zero _ _ hnew, countKey_singleton]
  · rw [hs]
    exact place_card_idem s.cardRefs (ideaIdOf j)
  · intro hc
    rw [hs]
    simp only [place_card, hc]
    rw [countKey_append, countKey_eq_zero _ _ hc, countKey_singleton]

theorem C1_witness :
    processAttempt exampleCfg 1 true
        (processAttempt exampleCfg 1 true initialState exampleJob) exampleJob
      = processAttempt exampleCfg 1 true initialState exampleJob
    ∧ countKey (processAttempt exampleCfg 1 true initialState exampleJob).processed
        "J1" = 1 := by
  have h := C1_processing_idempotent exampleCfg 1 initialState exampleJob
    exampleWorkshop rfl rfl
  exact ⟨h.1, h.2.1⟩

theorem workerStep_nil (cfg : Config) (now : Nat) (posterOk : Bool) (t : CoreState)
    (h : t.queue = []) : workerStep cfg now posterOk t = t := by
  simp [workerStep, h]

theorem workerStep_fail (cfg : Config) (now : Nat) (t : CoreState) (j : IdeaJob)
    (w : WorkshopConfig)
    (hq : t.queue = [j]) (hnew : alookup t.processed j.job_id = none)
    (hw : alookup cfg.workshops j.workshop_id = some w) :
    workerStep cfg now false t =
      if cfg.max_attempts ≤ j.attempt_count + 1 then
        { t with queue := [],
                 deadLetters := t.deadLetters ++
                   [({ j with attempt_count := j.attempt_count + 1 }, "poster failure")],
                 events := t.events ++
                   [processingErrorEvent { j with attempt_count := j.attempt_count + 1 }
                     "poster failure"] }
      else
        { t with queue := [{ j with attempt_count := j.attempt_count + 1 }] } := by
  by_cases h : cfg.max_attempts ≤ j.attempt_count + 1 <;>
    simp [workerStep, hq, processAttempt, hnew, hw, nack, h]

theorem C2_run (cfg : Config) (now : Nat) (w : WorkshopConfig) :
    ∀ (k : Nat) (t : CoreState) (j : IdeaJob),
      t.queue = [j] →
      alookup t.processed j.job_id = none →
      alookup cfg.workshops j.workshop_id = some w →
      j.attempt_count + k = cfg.max_attempts → 1 ≤ k →
      ((workerStep cfg now false)^[k] t).queue = []
      ∧ ((workerStep cfg now false)^[k] t).deadLetters
          = t.deadLetters ++
            [({ j with attempt_count := cfg.max_attempts }, "poster failure")]
      ∧ ((workerStep cfg now false)^[k] t).events
          = t.events ++
            [processingErrorEvent { j with attempt_count := cfg.max_attempts }
              "poster failure"]
      ∧ ((workerStep cfg now false)^[k] t).processed = t.processed
      ∧ ((workerStep cfg now false)^[k] t).sessions = t.sessions
      ∧ ((workerStep cfg now false)^[k] t).themes = t.themes
      ∧ ((workerStep cfg now false)^[k] t).cardRefs = t.cardRefs
      ∧ (∀ i, i < k → ((workerStep cfg now false)^[i] t).queue ≠ []) := by
  intro k
  induction k with
  | zero => intro t j _ _ _ _ hk; omega
  | succ k ih =>
    intro t j hq hnew hw hsum _
    have hstep := workerStep_fail cfg now t j w hq hnew hw
    by_cases hle : cfg.max_attempts ≤ j.attempt_count + 1
    · have hk0 : k = 0 := by omega
      subst hk0
      have hac : j.attempt_count + 1 = cfg.max_attempts := by omega
      rw [if_pos hle] at hstep
      rw [hac] at hstep
      refine ⟨?_, ?_, ?_, ?_, ?_, ?_, ?_, ?_⟩
      · rw [Function.iterate_one, hstep]
      · rw [Function.iterate_one, hstep]
      · rw [Function.iterate_one, hstep]
      · rw [Function.iterate_one, hstep]
      · rw [Function.iterate_one, hstep]
      · rw [Function.iterate_one, hstep]
      · rw [Function.iterate_one, hstep]
      · intro i hi
        have hi0 : i = 0 := by omega
        subst hi0
        rw [Function.iterate_zero_apply, hq]
        simp
    · rw [if_neg hle] at hstep
      have h2 := ih { t with queue := [{ j with attempt_count := j.attempt_count + 1 }] }
        { j with attempt_count := j.attempt_count + 1 } rfl hnew hw
        (by show j.attempt_count + 1 + k = cfg.max_attempts; omega) (by omega)
      rw [Function.iterate_succ_apply, hstep]
      refine ⟨h2.1, h2.2.1, h2.2.2.1, h2.2.2.2.1, h2.2.2.2.2.1, h2.2.2.2.2.2.1,
        h2.2.2.2.2.2.2.1, ?_⟩
      intro i hi
      match i with
      | 0 =>
        rw [Function.iterate_zero_apply, hq]
        simp
      | i + 1 =>
        rw [Function.iterate_succ_apply, hstep]
        exact h2.2.2.2.2.2.2.2 i (by omega)

/-- Claim C2: a job whose every attempt fails is attempted exactly
max_attempts times: before each of the max_attempts worker steps the job
is still queued, and after them the queue is empty, the job sits in
exactly one new dead-letter entry, exactly one processing_error event
has been published, no ProcessedIdea was created, and a further worker
step changes nothing. -/
theorem C2_dead_letter (cfg : Config) (now : Nat) (s : CoreState) (j : IdeaJob)
    (w : WorkshopConfig)
    (hq : s.queue = [j]) (hac : j.attempt_count = 0)
    (hnew : alookup s.processed j.job_id = none)
    (hw : alookup cfg.workshops j.workshop_id = some w)
    (hmax : 1 ≤ cfg.max_attempts) :
    (∀ i, i < cfg.max_attempts → ((workerStep cfg now false)^[i] s).queue ≠ [])
    ∧ ((workerStep cfg now false)^[cfg.max_attempts] s).queue = []
    ∧ ((workerStep cfg now false)^[cfg.max_attempts] s).deadLetters
        = s.deadLetters ++
          [({ j with attempt_count := cfg.max_attempts }, "poster failure")]
    ∧ ((workerStep cfg now false)^[cfg.max_attempts] s).events
        = s.events ++
          [processingErrorEvent { j with attempt_count := cfg.max_attempts }
            "poster failure"]
    ∧ ((workerStep cfg now false)^[cfg.max_attempts] s).processed = s.processed
    ∧ workerStep cfg now false ((workerStep cfg now false)^[cfg.max_attempts] s)
        = (workerStep cfg now false)^[cfg.max_attempts] s := by
  have h := C2_run cfg now w cfg.max_attempts s j hq hnew hw (by omega) hmax
  exact ⟨h.2.2.2.2.2.2.2, h.1, h.2.1, h.2.2.1, h.2.2.2.1,
    workerStep_nil cfg now false _ h.1⟩

theorem C2_witness :
    ((workerStep exampleCfg 0 false)^[3] c2State).queue = []
    ∧ ((workerStep exampleCfg 0 false)^[3] c2State).processed = []
    ∧ ((workerStep exampleCfg 0 false)^[1] c2State).queue ≠ [] := by
  have h := C2_dead_letter exampleCfg 0 c2State exampleJob exampleWorkshop
    rfl rfl rfl rfl (by decide)
  exact ⟨h.2.1, h.2.2.2.2.1, h.1 1 (by decide)⟩

theorem bestMatch_mem (sim : String → String → Nat) (text : String) :
    ∀ (l : List Theme) (t : Theme) (sc : Nat),
      bestMatch sim text l = some (t, sc) →
      t ∈ l ∧ sc = sim text t.representative := by
  intro l
  induction l with
  | nil => intro t sc h; simp [bestMatch] at h
  | cons a rest ih =>
    intro t sc h
    rw [bestMatch] at h
    cases hb : bestMatch sim text rest with
    | none =>
      rw [hb] at h
      simp at h
      obtain ⟨h1, h2⟩ := h
      subst h1
      exact ⟨List.mem_cons_self _ _, h2.symm⟩
    | some p =>
      obtain ⟨tb, sb⟩ := p
      rw [hb] at h
      dsimp only at h
      by_cases hgt : sb > sim text a.representative
      · rw [if_pos hgt] at h
        simp at h
        obtain ⟨h1, h2⟩ := h
        have hm := ih tb sb hb
        subst h1
        subst h2
        exact ⟨List.mem_cons_of_mem _ hm.1, hm.2⟩
      · rw [if_neg hgt] at h
        simp at h
        obtain ⟨h1, h2⟩ := h
        subst h1
        exact ⟨List.mem_cons_self _ _, h2.symm⟩

/-- Claim C3: assign_theme joins the best-matching theme of the same
workshop and creates no new theme whenever the best similarity exceeds
the threshold, leaving other themes untouched; when no theme of the
workshop exceeds the threshold it creates a new theme with the idea as
sole member and representative; and in an empty workshop two
above-threshold-similar transcripts end up together: the second joins
the theme created by the first, leaving the workshop with one theme
holding both ideas. -/
theorem C3_theme_assignment (cfg : Config) (w : WorkshopConfig)
    (hai : cfg.aiAvailable = true) :
    (∀ (themes : List Theme) (wid iid text : String) (t : Theme) (score : Nat),
       bestMatch cfg.sim text (themesOf wid themes) = some (t, score) →
       w.similarity_threshold < score →
       assign_theme cfg w themes wid iid text
         = (t.theme_id, addMember t.theme_id iid themes)
       ∧ (addMember t.theme_id iid themes).length = themes.length
       ∧ t ∈ themesOf wid themes
       ∧ (∀ u ∈ themes, u.theme_id ≠ t.theme_id → u ∈ addMember t.theme_id iid themes))
    ∧ (∀ (themes : List Theme) (wid iid text : String),
       (∀ (t : Theme) (score : Nat),
          bestMatch cfg.sim text (themesOf wid themes) = some (t, score) →
          score ≤ w.similarity_threshold) →
       assign_theme cfg w themes wid iid text
         = (newThemeId iid,
            themes ++ [{ theme_id := newThemeId iid, workshop_id := wid,
                         label := text, member_idea_ids := [iid],
                         representative := text }]))
    ∧ (∀ (wid i1 t1 i2 t2 : String),
       w.similarity_threshold < cfg.sim t2 t1 →
       (assign_theme cfg w (assign_theme cfg w [] wid i1 t1).2 wid i2 t2).1
         = (assign_theme cfg w [] wid i1 t1).1
       ∧ (assign_theme cfg w (assign_theme cfg w [] wid i1 t1).2 wid i2 t2).2
         = [{ theme_id := newThemeId i1, workshop_id := wid, label := t1,
              member_idea_ids := [i1, i2], representative := t1 }]) := by
  refine ⟨?_, ?_, ?_⟩
  · intro themes wid iid text t score hbm hsc
    refine ⟨?_, by simp [addMember],
      (bestMatch_mem cfg.sim text _ t score hbm).1, ?_⟩
    · simp [assign_theme, hai, hbm, hsc]
    · intro u hu hne
      simp only [addMember, List.mem_map]
      exact ⟨u, hu, by simp [hne]⟩
  · intro themes wid iid text hno
    cases hbm : bestMatch cfg.sim text (themesOf wid themes) with
    | none => simp [assign_theme, hai, hbm]
    | some p =>
      obtain ⟨t, score⟩ := p
      have hnl : ¬ w.similarity_threshold < score := not_lt.mpr (hno t score hbm)
      simp [assign_theme, hai, hbm, hnl]
  · intro wid i1 t1 i2 t2 hsim
    have h1 : assign_theme cfg w [] wid i1 t1
        = (newThemeId i1,
           [{ theme_id := newThemeId i1, workshop_id := wid, label := t1,
              member_idea_ids := [i1], representative := t1 }]) := by
      simp [assign_theme, hai, themesOf, bestMatch]
    have hb2 : bestMatch cfg.sim t2 (themesOf wid
        [{ theme_id := newThemeId i1, workshop_id := wid, label := t1,
           member_idea_ids := [i1], representative := t1 }])
        = some ({ theme_id := newThemeId i1, workshop_id := wid, label := t1,
                  member_idea_ids := [i1], representative := t1 }, cfg.sim t2 t1) := by
      simp [themesOf, bestMatch]
    constructor
    · rw [h1]
      simp [assign_theme, hai, hb2, hsim]
    · rw [h1]
      simp [assign_theme, hai, hb2, hsim, addMember]

theorem C3_witness :
    (assign_theme exampleCfg exampleWorkshop
        (assign_theme exampleCfg exampleWorkshop [] "W1" "I1" "x").2 "W1" "I2" "x").2
      = [{ theme_id := newThemeId "I1", workshop_id := "W1", label := "x",
           member_idea_ids := ["I1", "I2"], representative := "x" }] :=
  ((C3_theme_assignment exampleCfg exampleWorkshop rfl).2.2 "W1" "I1" "x" "I2" "x"
    (by decide)).2

theorem assign_theme_noai (cfg : Config) (w : WorkshopConfig)
    (themes : List Theme) (wid iid text : String)
    (hai : cfg.aiAvailable = false) :
    (assign_theme cfg w themes wid iid text).1 = w.default_theme_id := by
  simp only [assign_theme, hai, Bool.false_eq_true, if_false]
  split <;> rfl

/-- Claim C4: when similarity scoring is unavailable the clustering
engine routes every idea to the workshop catch-all theme and the job
still completes its pipeline: the ProcessedIdea is created with the
default theme, its card is posted and cached, nothing is nacked or
dead-lettered, and the only published event is idea_processed — no
job-level error occurs. -/
theorem C4_degraded_mode (cfg : Config) (now : Nat) (s : CoreState) (j : IdeaJob)
    (w : WorkshopConfig)
    (hai : cfg.aiAvailable = false)
    (hnew : alookup s.processed j.job_id = none)
    (hw : alookup cfg.workshops j.workshop_id = some w) :
    (∀ (themes : List Theme) (wid iid text : String),
       (assign_theme cfg w themes wid iid text).1 = w.default_theme_id)
    ∧ (∃ idea : ProcessedIdea,
        alookup (processAttempt cfg now true s j).processed j.job_id = some idea
        ∧ idea.theme_id = w.default_theme_id
        ∧ alookup (processAttempt cfg now true s j).cardRefs (ideaIdOf j)
            = some idea.card_ref)
    ∧ (processAttempt cfg now true s j).deadLetters = s.deadLetters
    ∧ (processAttempt cfg now true s j).queue = s.queue
    ∧ (processAttempt cfg now true s j).events
        = s.events ++
          [{ type := EventType.idea_processed, session_id := j.session_id,
             idea_id := some (ideaIdOf j), theme_id := some w.default_theme_id,
             card_ref := some (place_card s.cardRefs (ideaIdOf j)).1 }] := by
  have hs := processAttempt_success cfg now s j w hnew hw
  have hth := assign_theme_noai cfg w s.themes j.workshop_id (ideaIdOf j)
    j.raw_transcript hai
  refine ⟨fun themes wid iid text =>
      assign_theme_noai cfg w themes wid iid text hai, ?_, ?_, ?_, ?_⟩
  · refine ⟨{ idea_id := ideaIdOf j, session_id := j.session_id,
              workshop_id := j.workshop_id, canonical_text := j.raw_transcript,
              theme_id := w.default_theme_id,
              card_ref := (place_card s.cardRefs (ideaIdOf j)).1 }, ?_, rfl, ?_⟩
    · rw [hs]
      simp only [hth]
      exact alookup_append_right _ _ _ hnew
    · rw [hs]
      exact place_card_lookup s.cardRefs (ideaIdOf j)
  · simp [hs]
  · simp [hs]
  · simp [hs, hth]

theorem C4_witness :
    ∃ idea : ProcessedIdea,
      alookup (processAttempt exampleCfgNoAI 2 true initialState exampleJob).processed
          "J1" = some idea
      ∧ idea.theme_id = "catch_all" :=
  match (C4_degraded_mode exampleCfgNoAI 2 initialState exampleJob exampleWorkshop
      rfl rfl rfl).2.1 with
  | ⟨idea, h1, h2, _⟩ => ⟨idea, h1, h2⟩

theorem touch_find_some (now : Nat) (sid wid : String) :
    ∀ (l : List Session) (sess : Session),
      findSession sid l = some sess →
      findSession sid (touchSessionList now sid wid l)
        = some { sess with idea_count := sess.idea_count + 1,
                           last_activity_at := now,
                           status := SessionStatus.active } := by
  intro l
  induction l with
  | nil => intro sess h; simp [findSession] at h
  | cons a rest ih =>
    intro sess h
    rw [findSession] at h
    by_cases ha : a.id = sid
    · rw [if_pos ha] at h
      injection h with h
      subst h
      rw [touchSessionList, if_pos ha, findSession, if_pos ha]
    · rw [if_neg ha] at h
      rw [touchSessionList, if_neg ha, findSession, if_neg ha]
      exact ih sess h

theorem touch_find_none (now : Nat) (sid wid : String) :
    ∀ (l : List Session),
      findSession sid l = none →
      findSession sid (touchSessionList now sid wid l)
        = some { id := sid, workshop_id := wid, idea_count := 1,
                 last_activity_at := now, status := SessionStatus.active } := by
  intro l
  induction l with
  | nil => intro _; simp [touchSessionList, findSession]
  | cons a rest ih =>
    intro h
    rw [findSession] at h
    by_cases ha : a.id = sid
    · rw [if_pos ha] at h
      exact absurd h (by simp)
    · rw [if_neg ha] at h
      rw [touchSessionList, if_neg ha, findSession, if_neg ha]
      exact ih h

theorem touchFold_count (sid wid : String) :
    ∀ (ts : List Nat) (l : List Session) (sess : Session),
      findSession sid l = some sess →
      ∃ sess2, findSession sid (touchFold sid wid ts l) = some sess2
        ∧ sess2.idea_count = sess.idea_count + ts.length := by
  intro ts
  induction ts with
  | nil => intro l sess h; exact ⟨sess, h, rfl⟩
  | cons t ts ih =>
    intro l sess h
    have h1 := touch_find_some t sid wid l sess h
    obtain ⟨sess2, h2, h3⟩ := ih (touchSessionList t sid wid l) _ h1
    refine ⟨sess2, h2, ?_⟩
    rw [h3]
    simp [List.length_cons]
    omega

/-- Claim C5: the session idea_count is exact: starting from a store
without the session, any serialization of N atomic touch operations for
that session (one per concurrent submission, each an atomic
increment-or-create step) leaves the session with idea_count exactly N;
more generally N touches add exactly N to an existing count, so no
interleaving of touches loses an update. -/
theorem C5_session_count_exact (sid wid : String) :
    (∀ (ts : List Nat) (l : List Session) (sess : Session),
       findSession sid l = some sess →
       ∃ sess2, findSession sid (touchFold sid wid ts l) = some sess2
         ∧ sess2.idea_count = sess.idea_count + ts.length)
    ∧ (∀ (ts : List Nat) (l : List Session),
       findSession sid l = none → ts ≠ [] →
       ∃ sess2, findSession sid (touchFold sid wid ts l) = some sess2
         ∧ sess2.idea_count = ts.length) := by
  refine ⟨touchFold_count sid wid, ?_⟩
  intro ts l h hne
  match ts with
  | [] => exact absurd rfl hne
  | t :: ts =>
    have h1 := touch_find_none t sid wid l h
    obtain ⟨sess2, h2, h3⟩ := touchFold_count sid wid ts
      (touchSessionList t sid wid l) _ h1
    exact ⟨sess2, h2, by rw [h3]; simp; omega⟩

theorem C5_witness :
    ∃ sess2, findSession "S1" (touchFold "S1" "W1" [5, 6, 7] []) = some sess2
      ∧ sess2.idea_count = 3 :=
  (C5_session_count_exact "S1" "W1").2 [5, 6, 7] [] rfl (by decide)

theorem workshopValid_false_iff (cfg : Config) (wid : String) :
    workshopValid cfg wid = false
      ↔ (alookup cfg.workshops wid = none
         ∨ ∃ w, alookup cfg.workshops wid = some w ∧ w.active = false) := by
  cases h : alookup cfg.workshops wid with
  | none => simp [workshopValid, h]
  | some w => simp [workshopValid, h]

/-- Claim C6: every submission accepted at the ingest boundary carries
workshop_id, session_id, transcript and optional question/category
metadata (the Submission record), the response carries a job identifier
and the accepted/rejected status, rejection happens exactly when the
workshop is unknown or inactive, a rejected submission changes nothing
(in particular nothing is queued), and an accepted one enqueues exactly
one job carrying the submission fields. -/
theorem C6_ingest_validation (cfg : Config) (now : Nat) (fresh : String)
    (s : CoreState) (sub : Submission) :
    (ingest cfg now fresh s sub).1.job_id = fresh
    ∧ ((ingest cfg now fresh s sub).1.accepted = false
        ↔ (alookup cfg.workshops sub.workshop_id = none
           ∨ ∃ w, alookup cfg.workshops sub.workshop_id = some w
               ∧ w.active = false))
    ∧ ((ingest cfg now fresh s sub).1.accepted = false
        → (ingest cfg now fresh s sub).2 = s)
    ∧ ((ingest cfg now fresh s sub).1.accepted = true
        → (ingest cfg now fresh s sub).2.queue
            = s.queue ++
              [{ job_id := fresh, session_id := sub.session_id,
                 workshop_id := sub.workshop_id,
                 raw_transcript := sub.transcript,
                 question_id := sub.question_id,
                 submitted_at := now, attempt_count := 0 }]) := by
  by_cases hv : workshopValid cfg sub.workshop_id
  · have hv2 : ¬ workshopValid cfg sub.workshop_id = false := by simp [hv]
    refine ⟨by simp [ingest, hv], ?_, ?_, ?_⟩
    · rw [← workshopValid_false_iff]
      simp [ingest, hv]
    · intro hacc
      exact absurd hacc (by simp [ingest, hv])
    · intro _
      simp [ingest, hv]
  · have hv2 : workshopValid cfg sub.workshop_id = false := by
      simpa using hv
    refine ⟨by simp [ingest, hv], ?_, ?_, ?_⟩
    · rw [← workshopValid_false_iff]
      simp [ingest, hv, hv2]
    · intro _
      simp [ingest, hv]
    · intro hacc
      exact absurd hacc (by simp [ingest, hv])

theorem C6_witness :
    (ingest exampleCfg 0 "F1" initialState exampleSub).1.accepted = false
    ∧ (ingest exampleCfg 0 "F1" initialState exampleSub).2 = initialState := by
  have h := C6_ingest_validation exampleCfg 0 "F1" initialState exampleSub
  have hrej := h.2.1.mpr (Or.inl rfl)
  exact ⟨hrej, h.2.2.1 hrej⟩

theorem sessionIdsPreserved_refl (l : List Session) : sessionIdsPreserved l l :=
  fun sess h => ⟨sess, h, rfl⟩

theorem touchSessionList_preserves (now : Nat) (sid wid : String) :
    ∀ l, sessionIdsPreserved l (touchSessionList now sid wid l) := by
  intro l
  induction l with
  | nil => intro sess h; simp at h
  | cons a rest ih =>
    intro sess hmem
    rw [touchSessionList]
    by_cases ha : a.id = sid
    · rw [if_pos ha]
      rcases List.mem_cons.mp hmem with h | h
      · subst h
        exact ⟨_, List.mem_cons_self _ _, rfl⟩
      · exact ⟨sess, List.mem_cons_of_mem _ h, rfl⟩
    · rw [if_neg ha]
      rcases List.mem_cons.mp hmem with h | h
      · subst h
        exact ⟨_, List.mem_cons_self _ _, rfl⟩
      · obtain ⟨s2, hs2, hid⟩ := ih sess h
        exact ⟨s2, List.mem_cons_of_mem _ hs2, hid⟩

theorem nack_sessions (maxA : Nat) (s : CoreState) (j : IdeaJob) (reason : String) :
    (nack maxA s j reason).sessions = s.sessions := by
  simp only [nack]
  split <;> rfl

theorem processAttempt_sessions (cfg : Config) (now : Nat) (posterOk : Bool)
    (s : CoreState) (j : IdeaJob) :
    (processAttempt cfg now posterOk s j).sessions = s.sessions
    ∨ (processAttempt cfg now posterOk s j).sessions
        = touchSessionList now j.session_id j.workshop_id s.sessions := by
  by_cases hp : (alookup s.processed j.job_id).isSome = true
  · left
    rw [processAttempt_hit cfg now posterOk s j hp]
  · cases hw : alookup cfg.workshops j.workshop_id with
    | none => left; simp [processAttempt, hp, hw, nack_sessions]
    | some w =>
      cases posterOk with
      | false => left; simp [processAttempt, hp, hw, nack_sessions]
      | true => right; simp [processAttempt, hp, hw]

theorem expireSession_id (now ttl : Nat) (x : Session) :
    (expireSession now ttl x).id = x.id := by
  simp only [expireSession]
  split <;> rfl

/-- Claim C7: expire_idle only flags: it maps every session whose
last_activity_at is older than the ttl to status expired and changes
nothing else about any session, preserving the number and ids of all
sessions; moreover no operation of the core (touch, ingest, nack, a
worker attempt, a worker step, or the sweep itself) ever removes a
session from the store. -/
theorem C7_expiry_never_deletes (now ttl : Nat) (s : CoreState) :
    (expire_idle now ttl s).sessions = s.sessions.map (expireSession now ttl)
    ∧ (∀ sess : Session,
        (expireSession now ttl sess).id = sess.id
        ∧ (expireSession now ttl sess).workshop_id = sess.workshop_id
        ∧ (expireSession now ttl sess).idea_count = sess.idea_count
        ∧ (expireSession now ttl sess).last_activity_at = sess.last_activity_at
        ∧ (expireSession now ttl sess).status
            = (if sess.last_activity_at + ttl < now then SessionStatus.expired
               else sess.status))
    ∧ (expire_idle now ttl s).sessions.length = s.sessions.length
    ∧ sessionIdsPreserved s.sessions (expire_idle now ttl s).sessions
    ∧ (∀ (now2 : Nat) (sid wid : String),
        sessionIdsPreserved s.sessions (touch now2 s sid wid).sessions)
    ∧ (∀ (cfg : Config) (fresh : String) (sub : Submission),
        sessionIdsPreserved s.sessions (ingest cfg now fresh s sub).2.sessions)
    ∧ (∀ (maxA : Nat) (j : IdeaJob) (reason : String),
        sessionIdsPreserved s.sessions (nack maxA s j reason).sessions)
    ∧ (∀ (cfg : Config) (posterOk : Bool) (j : IdeaJob),
        sessionIdsPreserved s.sessions
          (processAttempt cfg now posterOk s j).sessions)
    ∧ (∀ (cfg : Config) (posterOk : Bool),
        sessionIdsPreserved s.sessions (workerStep cfg now posterOk s).sessions) := by
  refine ⟨rfl, ?_, by simp [expire_idle], ?_, ?_, ?_, ?_, ?_, ?_⟩
  · intro sess
    by_cases h : sess.last_activity_at + ttl < now <;>
      simp [expireSession, h]
  · intro sess h
    exact ⟨expireSession now ttl sess,
      List.mem_map_of_mem (expireSession now ttl) h, expireSession_id now ttl sess⟩
  · intro now2 sid wid
    exact touchSessionList_preserves now2 sid wid s.sessions
  · intro cfg fresh sub
    by_cases hv : workshopValid cfg sub.workshop_id <;>
      simp [ingest, hv] <;> exact sessionIdsPreserved_refl _
  · intro maxA j reason
    rw [nack_sessions]
    exact sessionIdsPreserved_refl _
  · intro cfg posterOk j
    rcases processAttempt_sessions cfg now posterOk s j with h | h <;> rw [h]
    · exact sessionIdsPreserved_refl _
    · exact touchSessionList_preserves now j.session_id j.workshop_id s.sessions
  · intro cfg posterOk
    cases hq : s.queue with
    | nil =>
      rw [workerStep_nil cfg now posterOk s hq]
      exact sessionIdsPreserved_refl _
    | cons j rest =>
      have hred : workerStep cfg now posterOk s
          = processAttempt cfg now posterOk { s with queue := rest } j := by
        simp [workerStep, hq]
      rw [hred]
      rcases processAttempt_sessions cfg now posterOk { s with queue := rest } j
        with h | h <;> rw [h]
      · exact sessionIdsPreserved_refl _
      · exact touchSessionList_preserves now j.session_id j.workshop_id s.sessions

theorem C7_witness :
    (expireSession 100 10 exSession).status = SessionStatus.expired
    ∧ (expire_idle 100 10 exState).sessions.length = 1 := by
  have h := C7_expiry_never_deletes 100 10 exState
  constructor
  · have h2 := (h.2.1 exSession).2.2.2.2
    rw [if_pos (show exSession.last_activity_at + 10 < 100 by decide)] at h2
    exact h2
  · exact h.2.2.1

/-- Claim C8 counterexample: the live-update channel delivers the
connected handshake event, whose type is none of the four types the
claim allows, so not every delivered event is of one of those types. -/
theorem C8_counterexample :
    connectedEvent ∈ subscribeEvents initialState
    ∧ specEventType connectedEvent.type = false :=
  ⟨List.mem_cons_self _ _, rfl⟩

theorem wellTyped_append_one {l : List Event} {ev : Event}
    (h : ∀ e ∈ l, specEventType e.type = true)
    (hev : specEventType ev.type = true) :
    ∀ e ∈ l ++ [ev], specEventType e.type = true := by
  intro e he
  rcases List.mem_append.mp he with h1 | h2
  · exact h e h1
  · rw [List.mem_singleton.mp h2]
    exact hev

theorem nack_events_typed (maxA : Nat) (s : CoreState) (j : IdeaJob)
    (reason : String) (h : eventsWellTyped s) :
    ∀ e ∈ (nack maxA s j reason).events, specEventType e.type = true := by
  by_cases hle : maxA ≤ j.attempt_count + 1
  · have he : (nack maxA s j reason).events
        = s.events ++ [processingErrorEvent
            { j with attempt_count := j.attempt_count + 1 } reason] := by
      simp [nack, hle]
    rw [he]
    exact wellTyped_append_one h rfl
  · have he : (nack maxA s j reason).events = s.events := by
      simp [nack, hle]
    rw [he]
    exact h

theorem processAttempt_events_typed (cfg : Config) (now : Nat) (posterOk : Bool)
    (s : CoreState) (j : IdeaJob) (h : eventsWellTyped s) :
    eventsWellTyped (processAttempt cfg now posterOk s j) := by
  by_cases hp : (alookup s.processed j.job_id).isSome = true
  · rw [processAttempt_hit cfg now posterOk s j hp]
    exact h
  · cases hw : alookup cfg.workshops j.workshop_id with
    | none =>
      intro e he
      have hev : (processAttempt cfg now posterOk s j)
          = nack cfg.max_attempts s j "unknown workshop" := by
        simp [processAttempt, hp, hw]
      rw [hev] at he
      exact nack_events_typed cfg.max_attempts s j "unknown workshop" h e he
    | some w =>
      cases posterOk with
      | false =>
        intro e he
        have hev : (processAttempt cfg now false s j)
            = nack cfg.max_attempts s j "poster failure" := by
          simp [processAttempt, hp, hw]
        rw [hev] at he
        exact nack_events_typed cfg.max_attempts s j "poster failure" h e he
      | true =>
        intro e he
        rw [processAttempt_success cfg now s j w
          (by cases hl : alookup s.processed j.job_id with
            | none => rfl
            | some v => rw [hl] at hp; simp at hp) hw] at he
        refine wellTyped_append_one h ?_ e he
        rfl

/-- Claim C8 amended: every event delivered on the live-update channel
is either the connected handshake event delivered on subscription or a
published pipeline event, and every event the core publishes (through
ingest, nack, worker attempts, worker steps, touch or expire_idle) has
one of exactly the four types idea_submitted, idea_processed,
processing_error, session_updated. -/
theorem C8_channel_events :
    (∀ s : CoreState, subscribeEvents s = connectedEvent :: s.events)
    ∧ eventsWellTyped initialState
    ∧ (∀ (cfg : Config) (now : Nat) (fresh : String) (s : CoreState)
         (sub : Submission), eventsWellTyped s →
         eventsWellTyped (ingest cfg now fresh s sub).2)
    ∧ (∀ (maxA : Nat) (s : CoreState) (j : IdeaJob) (reason : String),
         eventsWellTyped s → eventsWellTyped (nack maxA s j reason))
    ∧ (∀ (cfg : Config) (now : Nat) (posterOk : Bool) (s : CoreState)
         (j : IdeaJob), eventsWellTyped s →
         eventsWellTyped (processAttempt cfg now posterOk s j))
    ∧ (∀ (cfg : Config) (now : Nat) (posterOk : Bool) (s : CoreState),
         eventsWellTyped s → eventsWellTyped (workerStep cfg now posterOk s))
    ∧ (∀ (now ttl : Nat) (s : CoreState),
         eventsWellTyped s → eventsWellTyped (expire_idle now ttl s))
    ∧ (∀ (now : Nat) (s : CoreState) (sid wid : String),
         eventsWellTyped s → eventsWellTyped (touch now s sid wid)) := by
  refine ⟨fun s => rfl, by intro e he; simp [initialState] at he,
    ?_, ?_, ?_, ?_, ?_, ?_⟩
  · intro cfg now fresh s sub h
    by_cases hv : workshopValid cfg sub.workshop_id
    · intro e he
      have hev : (ingest cfg now fresh s sub).2.events
          = s.events ++
            [{ type := EventType.idea_submitted, session_id := sub.session_id }] := by
        simp [ingest, hv]
      rw [hev] at he
      refine wellTyped_append_one h ?_ e he
      rfl
    · intro e he
      have hev : (ingest cfg now fresh s sub).2.events = s.events := by
        simp [ingest, hv]
      rw [hev] at he
      exact h e he
  · exact fun maxA s j reason h => nack_events_typed maxA s j reason h
  · exact fun cfg now posterOk s j h =>
      processAttempt_events_typed cfg now posterOk s j h
  · intro cfg now posterOk s h
    cases hq : s.queue with
    | nil =>
      rw [workerStep_nil cfg now posterOk s hq]
      exact h
    | cons j rest =>
      have hred : workerStep cfg now posterOk s
          = processAttempt cfg now posterOk { s with queue := rest } j := by
        simp [workerStep, hq]
      rw [hred]
      exact processAttempt_events_typed cfg now posterOk { s with queue := rest } j h
  · exact fun now ttl s h => h
  · exact fun now s sid wid h => h

theorem C8_witness :
    subscribeEvents initialState = [connectedEvent]
    ∧ eventsWellTyped (ingest exampleCfg 0 "F1" initialState exampleSub).2 :=
  ⟨C8_channel_events.1 initialState,
   C8_channel_events.2.2.1 exampleCfg 0 "F1" initialState exampleSub
     C8_channel_events.2.1⟩

end AutoIdeas
